import Mathlib

/-!
Verification of the phishing-detector scoring pipeline
(`src/detector.py` and `src/utils.py`).

The Python code is shallowly embedded: pure functions become Lean
functions over `String` / `List Char`; the regular expressions the code
uses are embedded as explicit left-to-right scanners with the exact
backtracking behaviour of the patterns in the source; Python's dynamic
`dict` values returned from `json.loads` are embedded as a `JsonVal`
inductive; the outbound network call and the stdlib MIME parser are
external effects and are embedded as explicit input oracles
(`AICallResult`, `Except Unit MimeMsg`).  Python floats in the source
(`0.6`, `0.8`) are only ever assigned and compared as literals, never
used in arithmetic, so they are embedded as rationals.  Character
classes (`\s`, `\d`) are modelled over ASCII, which covers every string
the code and the examples manipulate.
-/

/-! ## Basic Python string helpers -/

/-- Python's `\s` character class, ASCII part: space, tab, LF, CR, VT, FF. -/
def isPySpace (c : Char) : Bool :=
  c == ' ' || c == '\t' || c == '\n' || c == '\r' || c == '\x0b' || c == '\x0c'

/-- `str.lower()` (ASCII). -/
def pyLower (s : String) : String :=
  String.mk (s.toList.map Char.toLower)

/-- Is `needle` a contiguous sublist of `hay`?  (Python's `needle in hay`.) -/
def listHasInfix (hay needle : List Char) : Bool :=
  needle.isPrefixOf hay ||
    (match hay with
     | [] => false
     | _ :: t => listHasInfix t needle)

/-- Python's substring test `needle in hay`. -/
def pyContains (hay needle : String) : Bool :=
  listHasInfix hay.toList needle.toList

/-- Python's `s.endswith(suffix)`. -/
def pyEndsWith (s suffix : String) : Bool :=
  suffix.toList.isSuffixOf s.toList

/-- Python's `s.strip()` (ASCII whitespace). -/
def pyStrip (s : String) : String :=
  String.mk (((s.toList.dropWhile isPySpace).reverse.dropWhile isPySpace).reverse)

/-- Decimal value of a digit run (Python `int(digits)`). -/
def natOfDigits (ds : List Char) : Nat :=
  ds.foldl (fun acc c => 10 * acc + (c.toNat - '0'.toNat)) 0

/-! ## The URL regex `https?://[^\s<>"]+|www\.[^\s<>"]+`

`re.findall` over this pattern: scan positions left to right; at each
position try the `https?://` alternative (with the greedy optional `s`)
then the `www.` alternative; a match consumes its characters. -/

/-- Characters admitted by the `[^\s<>"]` class of the URL pattern. -/
def urlCharOk (c : Char) : Bool :=
  !(isPySpace c) && c != '<' && c != '>' && c != '"'

/-- Try to match `pre` followed by one-or-more `urlCharOk` characters at the
head of `cs`; returns the token and the rest of the input. -/
def matchUrlTokenAt (pre : List Char) (cs : List Char) : Option (List Char × List Char) :=
  if pre.isPrefixOf cs then
    let rest := cs.drop pre.length
    let run := rest.takeWhile urlCharOk
    if run.isEmpty then none else some (pre ++ run, rest.drop run.length)
  else none

/-- Match either alternative of the URL pattern at the head of `cs`.
`https?://` is tried first (with greedy `s?`), then `www.`. -/
def matchUrlAt (cs : List Char) : Option (List Char × List Char) :=
  (matchUrlTokenAt "https://".toList cs) <|>
    (matchUrlTokenAt "http://".toList cs) <|>
      (matchUrlTokenAt "www.".toList cs)

/-- Fueled left-to-right non-overlapping scan (`re.findall`); every step
consumes at least one character, so fuel equal to the input length suffices. -/
def findUrlsGo : Nat → List Char → List String
  | 0, _ => []
  | _, [] => []
  | fuel + 1, c :: rest =>
    match matchUrlAt (c :: rest) with
    | some (tok, rem) => String.mk tok :: findUrlsGo fuel rem
    | none => findUrlsGo fuel rest

/-- `re.findall(url_pattern, s)` for the URL pattern shared by
`detector.extract_urls`, `utils.extract_metadata` and `utils.extract_links`. -/
def findUrls (s : String) : List String :=
  findUrlsGo s.toList.length s.toList

/-- `utils.extract_links`. -/
def extract_links (text : String) : List String :=
  findUrls text

/-! ## `urllib.parse.urlparse(url).netloc`

CPython's `urlsplit`: if the text before the first `:` is a non-empty
valid scheme (leading ASCII letter, then letters/digits/`+`/`-`/`.`),
strip it; the netloc is then present only when the remainder starts with
`//`, and extends to the next `/`, `?` or `#`. -/

def scheme_chars : List Char :=
  "abcdefghijklmnopqrstuvwxyzABCDEFGHIJKLMNOPQRSTUVWXYZ0123456789+-.".toList

/-- Strip a leading `scheme:` from the URL if the scheme is valid. -/
def splitSchemeRest (cs : List Char) : List Char :=
  let pre := cs.takeWhile (fun c => !(c == ':'))
  match cs.drop pre.length with
  | ':' :: rest =>
    if (!pre.isEmpty) &&
        (match cs.head? with | some c => c.isAlpha | none => false) &&
        pre.all (fun c => scheme_chars.contains c) then
      rest
    else cs
  | _ => cs

/-- The netloc of the de-schemed remainder. -/
def netlocOf (rest : List Char) : List Char :=
  match rest with
  | '/' :: '/' :: r => r.takeWhile (fun c => !(c == '/' || c == '?' || c == '#'))
  | _ => []

/-- `urllib.parse.urlparse(url).netloc`. -/
def urlparseNetloc (url : String) : String :=
  String.mk (netlocOf (splitSchemeRest url.toList))

/-! ## `PhishingDetector` URL analysis -/

def phishing_keywords : List String :=
  ["urgent", "immediately", "verify", "account suspended",
   "password expired", "security alert", "click here",
   "confirm your identity", "unauthorized login attempt"]

def suspicious_tlds : List String :=
  [".tk", ".ml", ".ga", ".cf", ".xyz", ".top"]

def shorteners : List String :=
  ["bit.ly", "tinyurl.com", "goo.gl", "ow.ly", "is.gd"]

def redirect_keywords : List String :=
  ["redirect", "login", "verify", "confirm", "secure"]

/-- `PhishingDetector._is_shortened_url`. -/
def is_shortened_url (url : String) : Bool :=
  shorteners.any (fun sh => pyContains (pyLower url) sh)

/-- `PhishingDetector._has_suspicious_tld`. -/
def has_suspicious_tld (url : String) : Bool :=
  suspicious_tlds.any (fun tld => pyEndsWith (urlparseNetloc url) tld)

/-- One `\d+\.` step of the dotted-quad pattern: a non-empty digit run
followed by a literal dot (the greedy run cannot backtrack into the dot). -/
def digitsThenDot (cs : List Char) : Option (List Char) :=
  let ds := cs.takeWhile Char.isDigit
  if ds.isEmpty then none
  else
    match cs.drop ds.length with
    | '.' :: r => some r
    | _ => none

/-- Match `\d+\.\d+\.\d+\.\d+` at the head of `cs`. -/
def ipMatchAt (cs : List Char) : Bool :=
  match digitsThenDot cs with
  | none => false
  | some r1 =>
    match digitsThenDot r1 with
    | none => false
    | some r2 =>
      match digitsThenDot r2 with
      | none => false
      | some r3 => !(r3.takeWhile Char.isDigit).isEmpty

/-- `re.search(r'\d+\.\d+\.\d+\.\d+', url)` as a Boolean. -/
def hasIPv4Go : List Char → Bool
  | [] => false
  | c :: rest => ipMatchAt (c :: rest) || hasIPv4Go rest

def hasIPv4 (s : String) : Bool :=
  hasIPv4Go s.toList

/-- `PhishingDetector._check_redirect_possibility`: how many of the
redirect keywords occur in the lowercased URL (presence per keyword). -/
def check_redirect_possibility (url : String) : Nat :=
  (redirect_keywords.filter (fun k => pyContains (pyLower url) k)).length

/-- One entry of `PhishingDetector.extract_urls`'s result list. -/
structure UrlFinding where
  url : String
  is_shortened : Bool
  suspicious_tld : Bool
  has_ip_address : Bool
  redirect_depth : Nat
deriving DecidableEq

/-- The per-URL record built in `PhishingDetector.extract_urls`. -/
def analyzeUrl (u : String) : UrlFinding :=
  { url := u
    is_shortened := is_shortened_url u
    suspicious_tld := has_suspicious_tld u
    has_ip_address := hasIPv4 u
    redirect_depth := check_redirect_possibility u }

/-- `PhishingDetector.extract_urls`. -/
def extract_urls (text : String) : List UrlFinding :=
  (findUrls text).map analyzeUrl

/-! ## `utils.extract_metadata`

The two header regexes are `From:\s*(.+)` and `Subject:\s*(.+)` with
`re.IGNORECASE` under `re.search`.  At a match position the engine first
matches the literal label case-insensitively; `\s*` then consumes the
longest whitespace run that still leaves a non-newline character for the
greedy `(.+)` (which stops at the next newline or at the end). -/

/-- Case-insensitive literal match of `pat` (given lowercase) at the head
of `cs`; returns the rest on success. -/
def ciPrefixDrop (pat : List Char) (cs : List Char) : Option (List Char) :=
  if (cs.take pat.length).map Char.toLower == pat then some (cs.drop pat.length)
  else none

/-- Try the backtracking positions of `\s*` from `w` characters down to 0,
returning the first capture of `(.+)` that succeeds. -/
def labelCaptureBacktrack (rest : List Char) : Nat → Option String
  | 0 =>
    match rest with
    | [] => none
    | c :: _ => if c == '\n' then none else some (String.mk (rest.takeWhile (fun d => !(d == '\n'))))
  | w + 1 =>
    (match rest.drop (w + 1) with
     | [] => none
     | c :: _ =>
       if c == '\n' then none
       else some (String.mk ((rest.drop (w + 1)).takeWhile (fun d => !(d == '\n'))))) <|>
      labelCaptureBacktrack rest w

/-- Match `label` + `\s*(.+)` at the head of `cs`; returns the capture. -/
def matchLabelAt (label : List Char) (cs : List Char) : Option String :=
  match ciPrefixDrop label cs with
  | none => none
  | some rest => labelCaptureBacktrack rest ((rest.takeWhile isPySpace).length)

/-- `re.search` scan for `label\s*(.+)` (label given lowercase): first
position, left to right, at which the pattern matches. -/
def searchLabelCapture (label : List Char) : List Char → Option String
  | [] => none
  | c :: rest => matchLabelAt label (c :: rest) <|> searchLabelCapture label rest

/-- The `EmailMetadata` dictionary built by `utils.extract_metadata`
(`from` is a Lean keyword, hence the field name `from_`). -/
structure EmailMetadata where
  from_ : String
  subject : String
  has_links : Bool
  has_attachments : Bool
  date : Option String
deriving DecidableEq

/-- `utils.extract_metadata`. -/
def extract_metadata (raw_email : String) : EmailMetadata :=
  { from_ :=
      match searchLabelCapture "from:".toList raw_email.toList with
      | some cap => pyStrip cap
      | none => "Unknown"
    subject :=
      match searchLabelCapture "subject:".toList raw_email.toList with
      | some cap => pyStrip cap
      | none => "No Subject"
    has_links := !(findUrls raw_email).isEmpty
    has_attachments := pyContains raw_email "Content-Disposition: attachment"
    date := none }

/-! ## Risk levels and the two deterministic `AnalysisResult` producers -/

/-- The threshold expression
`"HIGH" if s > 70 else "MEDIUM" if s > 30 else "LOW"`, written twice in
`detector.py` (in `_parse_text_response` and `_fallback_analysis`). -/
def risk_level_of (s : Nat) : String :=
  if s > 70 then "HIGH" else if s > 30 then "MEDIUM" else "LOW"

/-- The result dictionary shape shared by `_parse_text_response` and
`_fallback_analysis` (both omit the `social_engineering_analysis` key).
`confidence` is a Python float literal, embedded as a rational. -/
structure AnalysisResult where
  risk_score : Nat
  risk_level : String
  indicators_found : List String
  technical_analysis : String
  recommendations : List String
  confidence : ℚ
deriving DecidableEq

/-- Match `risk[_\s]score[:\s]*(\d+)` (IGNORECASE) at the head of `cs`.
The `[:\s]*` run contains no digits, so no backtracking can expose a
digit: the match succeeds iff a digit follows the maximal run. -/
def matchRiskScoreAt (cs : List Char) : Option Nat :=
  match ciPrefixDrop "risk".toList cs with
  | none => none
  | some r1 =>
    match r1 with
    | [] => none
    | c :: r2 =>
      if c == '_' || isPySpace c then
        match ciPrefixDrop "score".toList r2 with
        | none => none
        | some r3 =>
          let r4 := r3.dropWhile (fun d => d == ':' || isPySpace d)
          let ds := r4.takeWhile Char.isDigit
          if ds.isEmpty then none else some (natOfDigits ds)
      else none

/-- `re.search(r'risk[_\s]score[:\s]*(\d+)', text, re.IGNORECASE)`,
returning the captured number. -/
def searchRiskScore : List Char → Option Nat
  | [] => none
  | c :: rest => matchRiskScoreAt (c :: rest) <|> searchRiskScore rest

/-- `PhishingDetector._parse_text_response`. -/
def parse_text_response (text : String) : AnalysisResult :=
  let risk_score := (searchRiskScore text.toList).getD 50
  { risk_score := risk_score
    risk_level := risk_level_of risk_score
    indicators_found := ["AI Analysis Available"]
    technical_analysis := String.mk (text.toList.take 500)
    recommendations := ["Review full analysis above"]
    confidence := 0.8 }

/-- The keyword count of `_fallback_analysis`:
`sum(1 for keyword in self.phishing_keywords if keyword in content_lower)`. -/
def keywordMatches (email_content : String) : Nat :=
  (phishing_keywords.filter (fun k => pyContains (pyLower email_content) k)).length

/-- The suspicious-URL count of `_fallback_analysis`:
`sum(1 for url in urls if url['suspicious_tld'] or url['has_ip_address'])`. -/
def suspiciousUrlCount (email_content : String) : Nat :=
  ((extract_urls email_content).filter
    (fun u => u.suspicious_tld || u.has_ip_address)).length

/-- `PhishingDetector._fallback_analysis`.  The `metadata` parameter is
accepted and ignored, exactly as in the source.  Note the source computes
`risk_level` from the *uncapped* accumulated score and `risk_score` from
the capped one. -/
def fallback_analysis (email_content : String) (_metadata : EmailMetadata) : AnalysisResult :=
  let k := keywordMatches email_content
  let u := suspiciousUrlCount email_content
  let score := min (k * 15) 60 + min (u * 20) 40
  { risk_score := min score 100
    risk_level := risk_level_of score
    indicators_found := [toString k ++ " phishing keywords",
                         toString u ++ " suspicious URLs"]
    technical_analysis := "Basic analysis (AI unavailable)"
    recommendations := ["Exercise caution", "Verify sender independently"]
    confidence := 0.6 }

/-! ## Python JSON values and `json.loads`

`analyze_with_ai` returns `json.loads(...)` verbatim when the response
text contains a brace-delimited JSON object, so its result type is a
dynamic JSON value, not the fixed result record.  `json.loads` is
embedded as a strict fueled recursive-descent parser over the JSON
grammar (numbers as exact rationals). -/

inductive JsonVal where
  | num (q : ℚ)
  | str (s : String)
  | boolean (b : Bool)
  | null
  | arr (xs : List JsonVal)
  | obj (kvs : List (String × JsonVal))

/-- JSON whitespace (exactly space, tab, LF, CR). -/
def isJsonWs (c : Char) : Bool :=
  c == ' ' || c == '\t' || c == '\n' || c == '\r'

def skipWs (cs : List Char) : List Char :=
  cs.dropWhile isJsonWs

/-- Parse the remainder of a JSON string (opening quote already
consumed).  Strict mode: raw control characters are rejected; `\uXXXX`
escapes become the corresponding code point. -/
def parseJsonStringGo : List Char → List Char → Option (String × List Char)
  | acc, '"' :: rest => some (String.mk acc.reverse, rest)
  | acc, '\\' :: e :: rest =>
    match e with
    | '"' => parseJsonStringGo ('"' :: acc) rest
    | '\\' => parseJsonStringGo ('\\' :: acc) rest
    | '/' => parseJsonStringGo ('/' :: acc) rest
    | 'b' => parseJsonStringGo ('\x08' :: acc) rest
    | 'f' => parseJsonStringGo ('\x0c' :: acc) rest
    | 'n' => parseJsonStringGo ('\n' :: acc) rest
    | 'r' => parseJsonStringGo ('\r' :: acc) rest
    | 't' => parseJsonStringGo ('\t' :: acc) rest
    | 'u' =>
      match rest with
      | h1 :: h2 :: h3 :: h4 :: rest2 =>
        if [h1, h2, h3, h4].all (fun c =>
            c.isDigit || ('a' ≤ c && c ≤ 'f') || ('A' ≤ c && c ≤ 'F')) then
          let n := [h1, h2, h3, h4].foldl
            (fun a c => 16 * a +
              (if c.isDigit then c.toNat - '0'.toNat
               else if 'a' ≤ c then c.toNat - 'a'.toNat + 10
               else c.toNat - 'A'.toNat + 10)) 0
          parseJsonStringGo (Char.ofNat n :: acc) rest2
        else none
      | _ => none
    | _ => none
  | acc, c :: rest =>
    if c.toNat < 32 then none else parseJsonStringGo (c :: acc) rest
  | _, [] => none

/-- Parse a JSON number (exact rational).  JSON grammar: optional `-`,
integer part `0` or nonzero-leading digits, optional fraction, optional
exponent. -/
def parseJsonNumber (cs : List Char) : Option (ℚ × List Char) :=
  let (neg, cs1) := match cs with
    | '-' :: t => (true, t)
    | _ => (false, cs)
  let ids := cs1.takeWhile Char.isDigit
  if ids.isEmpty then none
  else if 1 < ids.length && ids.head? == some '0' then none
  else
    let cs2 := cs1.drop ids.length
    let (fds, cs3) := match cs2 with
      | '.' :: t => (t.takeWhile Char.isDigit, (t.dropWhile Char.isDigit))
      | _ => ([], cs2)
    if cs2.head? == some '.' && fds.isEmpty then none
    else
      let (expOk, e, cs4) := match cs3 with
        | 'e' :: t | 'E' :: t =>
          let (esign, t2) := match t with
            | '+' :: u => ((1 : Int), u)
            | '-' :: u => ((-1 : Int), u)
            | _ => ((1 : Int), t)
          let eds := t2.takeWhile Char.isDigit
          if eds.isEmpty then (false, (0 : Int), cs3)
          else (true, esign * (natOfDigits eds : Int), t2.drop eds.length)
        | _ => (true, (0 : Int), cs3)
      if !expOk then none
      else
        let mantissa : Int := (natOfDigits ids : Int) * 10 ^ fds.length + (natOfDigits fds : Int)
        let signed : Int := if neg then -mantissa else mantissa
        let exp10 : Int := e - fds.length
        if 0 ≤ exp10 then some (((signed * 10 ^ exp10.toNat : Int) : ℚ), cs4)
        else some ((signed : ℚ) / (10 : ℚ) ^ (-exp10).toNat, cs4)

/-- One JSON value, by recursive descent on a structurally decreasing
fuel.  The member/element loops of objects and arrays are expressed by
re-parsing the continuation after a `,` as an object/array again (the
grammar `Members ::= Member | Member ',' Members` makes this exact), with
an explicit peek rejecting the trailing-comma forms Python also rejects. -/
def parseJsonVal : Nat → List Char → Option (JsonVal × List Char)
  | 0, _ => none
  | fuel + 1, cs =>
    match skipWs cs with
    | '{' :: rest =>
      match skipWs rest with
      | '}' :: rest2 => some (.obj [], rest2)
      | '"' :: rest2 =>
        match parseJsonStringGo [] rest2 with
        | none => none
        | some (key, rest3) =>
          match skipWs rest3 with
          | ':' :: rest4 =>
            match parseJsonVal fuel rest4 with
            | none => none
            | some (v, rest5) =>
              match skipWs rest5 with
              | '}' :: rest6 => some (.obj [(key, v)], rest6)
              | ',' :: rest6 =>
                match skipWs rest6 with
                | '"' :: _ =>
                  match parseJsonVal fuel ('{' :: skipWs rest6) with
                  | some (.obj kvs, rest7) => some (.obj ((key, v) :: kvs), rest7)
                  | _ => none
                | _ => none
              | _ => none
          | _ => none
      | _ => none
    | '[' :: rest =>
      match skipWs rest with
      | ']' :: rest2 => some (.arr [], rest2)
      | rest2 =>
        match parseJsonVal fuel rest2 with
        | none => none
        | some (v, rest3) =>
          match skipWs rest3 with
          | ']' :: rest4 => some (.arr [v], rest4)
          | ',' :: rest4 =>
            match skipWs rest4 with
            | ']' :: _ => none
            | _ =>
              match parseJsonVal fuel ('[' :: skipWs rest4) with
              | some (.arr vs, rest5) => some (.arr (v :: vs), rest5)
              | _ => none
          | _ => none
    | '"' :: rest => (parseJsonStringGo [] rest).map (fun p => (.str p.1, p.2))
    | 't' :: 'r' :: 'u' :: 'e' :: rest => some (.boolean true, rest)
    | 'f' :: 'a' :: 'l' :: 's' :: 'e' :: rest => some (.boolean false, rest)
    | 'n' :: 'u' :: 'l' :: 'l' :: rest => some (.null, rest)
    | cs2 => (parseJsonNumber cs2).map (fun p => (.num p.1, p.2))

/-- `json.loads`: the whole input must be one JSON value surrounded by
optional whitespace.  The fuel bounds the recursion depth, which never
exceeds twice the input length. -/
def jsonLoads (s : String) : Option JsonVal :=
  match parseJsonVal (2 * s.length + 4) s.toList with
  | some (v, rest) => if (skipWs rest).isEmpty then some v else none
  | none => none

/-- Python's `dict[key]` lookup on a parsed JSON object (`json.loads`
keeps the last binding of a duplicated key). -/
def dictGet (v : JsonVal) (k : String) : Option JsonVal :=
  match v with
  | .obj kvs => ((kvs.filter (fun p => p.1 == k)).getLast?).map (fun p => p.2)
  | _ => none

/-! ## `re.search(r'\{.*\}', text, re.DOTALL)`

With DOTALL the greedy `.*` runs to the last `}` of the whole text; the
leftmost match therefore starts at the first `{` and ends at the last
`}`, provided the latter comes after the former. -/

def extractBraces (s : String) : Option String :=
  let cs := s.toList
  match cs.findIdx? (fun c => c == '{'), cs.reverse.findIdx? (fun c => c == '}') with
  | some i, some jr =>
    let j := cs.length - 1 - jr
    if i < j then some (String.mk ((cs.drop i).take (j - i + 1))) else none
  | _, _ => none

/-! ## `PhishingDetector.analyze_with_ai`

The outbound HTTP call is an external effect; its outcome is an explicit
input.  `failure` covers everything the `except` clause catches before
the response text is available: network errors, `raise_for_status` on a
non-2xx reply, and a payload without `choices[0].message.content`.
`success text` is the AI's message text. -/

inductive AICallResult where
  | failure
  | success (text : String)

/-- The result dictionary literal of each deterministic path, as a
Python dict value (keys in the order they are written in the source). -/
def AnalysisResult.toJson (r : AnalysisResult) : JsonVal :=
  .obj [("risk_score", .num r.risk_score),
        ("risk_level", .str r.risk_level),
        ("indicators_found", .arr (r.indicators_found.map .str)),
        ("technical_analysis", .str r.technical_analysis),
        ("recommendations", .arr (r.recommendations.map .str)),
        ("confidence", .num r.confidence)]

/-- `PhishingDetector.analyze_with_ai`.  On `success`, a brace-delimited
JSON object in the text is parsed and returned verbatim; a text without
one goes to `_parse_text_response`; a `json.loads` error is caught by
the same `except` clause and falls back to `_fallback_analysis`, as does
`failure`. -/
def analyze_with_ai (email_content : String) (metadata : EmailMetadata)
    (call : AICallResult) : JsonVal :=
  match call with
  | .failure => (fallback_analysis email_content metadata).toJson
  | .success text =>
    match extractBraces text with
    | some js =>
      match jsonLoads js with
      | some v => v
      | none => (fallback_analysis email_content metadata).toJson
    | none => (parse_text_response text).toJson

/-! ## `utils.parse_email`

The stdlib MIME machinery (`email.message_from_string`, `walk`,
`get_payload(decode=True)`) is external; the embedding takes its outcome
as an explicit input.  `Except.error` models `message_from_string`
raising.  For each part, `payloadDecode` is the value of
`get_payload(decode=True).decode(errors='ignore')`: `none` models
`get_payload(decode=True)` returning `None`, on which the attribute
access `.decode` raises (caught by the function's `except`), while
`decode(errors='ignore')` itself never raises.

`utils.html_to_text` wraps its whole body in `try/except: return
html_content`, so it is a total `String → String` function; no claim
depends on its output, so `parse_email` is parameterised by it and every
theorem below holds for all of them. -/

structure MimePart where
  /-- `part.get_content_type()`. -/
  content_type : String
  /-- `part.get_filename()` (`none` = Python `None`). -/
  filename : Option String
  /-- `part.get_payload(decode=True).decode(errors='ignore')`; `none`
  models `get_payload(decode=True)` being `None`, so `.decode` raises. -/
  payloadDecode : Option String
deriving DecidableEq

structure MimeMsg where
  /-- Header occurrences in order; `msg[name]` is the first
  case-insensitive match. -/
  headers : List (String × String)
  /-- `msg.is_multipart()`. -/
  is_multipart : Bool
  /-- `msg.walk()` order for a multipart message (the container part
  included). -/
  parts : List MimePart
  /-- `msg.get_payload(decode=True).decode(errors='ignore')` for a
  non-multipart message; `none` models a `None` payload (raises). -/
  payload : Option String
  /-- `msg.get_filename()` for a non-multipart message; declared by the
  message but never consulted by `parse_email`'s `else` branch. -/
  filename : Option String
deriving DecidableEq

/-- The `if/elif` chain of the multipart loop in `parse_email`:
accumulates body text and attachment filenames; `none` when a decode
step raises.  `elif part.get_filename():` is Python truthiness, so an
empty-string filename is skipped. -/
def walkParts (h2t : String → String) :
    List MimePart → String → List String → Option (String × List String)
  | [], body, atts => some (body, atts)
  | p :: ps, body, atts =>
    if p.content_type == "text/plain" then
      match p.payloadDecode with
      | some s => walkParts h2t ps (body ++ s) atts
      | none => none
    else if p.content_type == "text/html" then
      match p.payloadDecode with
      | some s => walkParts h2t ps (body ++ h2t s) atts
      | none => none
    else
      match p.filename with
      | some f =>
        if f == "" then walkParts h2t ps body atts
        else walkParts h2t ps body (atts ++ [f])
      | none => walkParts h2t ps body atts

/-- Body and attachments of a successfully decoded message (`none` when
one of the decode steps raises). -/
def bodyOf (h2t : String → String) (msg : MimeMsg) : Option (String × List String) :=
  if msg.is_multipart then walkParts h2t msg.parts "" []
  else msg.payload.map (fun b => (b, []))

/-- The parsed-email dictionary shape of `utils.parse_email`. -/
structure ParsedEmail where
  headers : List (String × String)
  body : String
  attachments : List String
  links : List String
deriving DecidableEq

/-- The fixed header allow-list iterated by `parse_email`. -/
def headerAllowList : List String :=
  ["From", "To", "Subject", "Date", "Return-Path",
   "Received", "Message-ID", "Content-Type"]

/-- `msg[name]`: first header occurrence, case-insensitive name match. -/
def headerLookup (hs : List (String × String)) (name : String) : Option String :=
  (hs.find? (fun p => pyLower p.1 == pyLower name)).map (fun p => p.2)

/-- `utils.parse_email`.  Any raise inside the `try` block (modelled by
`Except.error` or by a failed decode step) is caught and yields the
fallback dictionary `{'body': raw_email, 'headers': {}, 'attachments':
[], 'links': []}`. -/
def parse_email (h2t : String → String) (raw_email : String)
    (res : Except Unit MimeMsg) : ParsedEmail :=
  match res with
  | .error _ => { headers := [], body := raw_email, attachments := [], links := [] }
  | .ok msg =>
    match bodyOf h2t msg with
    | none => { headers := [], body := raw_email, attachments := [], links := [] }
    | some (body, atts) =>
      { headers := headerAllowList.filterMap
          (fun h => (headerLookup msg.headers h).map (fun v => (h, v)))
        body := body
        attachments := atts
        links := extract_links body }

/-! ## Definitions used by the claim statements -/

/-- The spec's threshold mapping between a risk score and a risk level:
HIGH iff score > 70, MEDIUM iff 30 < score ≤ 70, LOW iff score ≤ 30. -/
def consistentScoreLevelQ (score : ℚ) (level : String) : Prop :=
  (level = "HIGH" ↔ 70 < score) ∧
  (level = "MEDIUM" ↔ 30 < score ∧ score ≤ 70) ∧
  (level = "LOW" ↔ score ≤ 30)

/-- The heuristic score as a function of the keyword count and the
suspicious-URL count. -/
def fallbackScore (k u : Nat) : Nat :=
  min (min (k * 15) 60 + min (u * 20) 40) 100

/-- The filename a part contributes to `parsed['attachments']`: only
parts that are neither `text/plain` nor `text/html` and declare a truthy
(non-empty) filename. -/
def partAttachment (p : MimePart) : Option String :=
  if p.content_type == "text/plain" || p.content_type == "text/html" then none
  else
    match p.filename with
    | some f => if f == "" then none else some f
    | none => none

/-! ## Helper lemmas -/

/-- The threshold expression of `detector.py` is consistent with the
mapping for every natural score. -/
theorem risk_level_of_consistent (n : Nat) :
    consistentScoreLevelQ (n : ℚ) (risk_level_of n) := by
  have c70 : ((70 : ℚ) < (n : ℚ)) ↔ 70 < n := by exact_mod_cast Iff.rfl
  have c30 : ((30 : ℚ) < (n : ℚ)) ↔ 30 < n := by exact_mod_cast Iff.rfl
  have d70 : ((n : ℚ) ≤ 70) ↔ n ≤ 70 := by exact_mod_cast Iff.rfl
  have d30 : ((n : ℚ) ≤ 30) ↔ n ≤ 30 := by exact_mod_cast Iff.rfl
  unfold consistentScoreLevelQ risk_level_of
  rw [c70, c30, d70, d30]
  by_cases h70 : 70 < n
  · rw [if_pos h70]
    refine ⟨by simp [h70], ?_, ?_⟩
    · exact ⟨fun h => absurd h (by decide), fun h => absurd h.2 (by omega)⟩
    · exact ⟨fun h => absurd h (by decide), fun h => absurd h (by omega)⟩
  · rw [if_neg h70]
    by_cases h30 : 30 < n
    · rw [if_pos h30]
      refine ⟨?_, by simp [h30]; omega, ?_⟩
      · exact ⟨fun h => absurd h (by decide), fun h => absurd h h70⟩
      · exact ⟨fun h => absurd h (by decide), fun h => absurd h (by omega)⟩
    · rw [if_neg h30]
      refine ⟨?_, ?_, by simp; omega⟩
      · exact ⟨fun h => absurd h (by decide), fun h => absurd h (by omega)⟩
      · exact ⟨fun h => absurd h (by decide), fun h => absurd h.1 h30⟩

/-- `risk_score` of the two deterministic paths, looked up in the dict view. -/
theorem dictGet_toJson_score (r : AnalysisResult) :
    dictGet r.toJson "risk_score" = some (.num r.risk_score) := rfl

theorem dictGet_toJson_level (r : AnalysisResult) :
    dictGet r.toJson "risk_level" = some (.str r.risk_level) := rfl

/-- The heuristic fallback result is threshold-consistent: the cap
`min score 100` is the identity because the two components are already
capped at 60 and 40. -/
theorem fallback_consistent (c : String) (md : EmailMetadata) :
    consistentScoreLevelQ ((fallback_analysis c md).risk_score : ℚ)
      (fallback_analysis c md).risk_level := by
  have hle : min (keywordMatches c * 15) 60 + min (suspiciousUrlCount c * 20) 40 ≤ 100 := by
    omega
  show consistentScoreLevelQ
    ((min (min (keywordMatches c * 15) 60 + min (suspiciousUrlCount c * 20) 40) 100 : Nat) : ℚ)
    (risk_level_of (min (keywordMatches c * 15) 60 + min (suspiciousUrlCount c * 20) 40))
  rw [Nat.min_eq_left hle]
  exact risk_level_of_consistent _

/-- The text-scrape result is threshold-consistent by construction. -/
theorem parse_text_consistent (t : String) :
    consistentScoreLevelQ ((parse_text_response t).risk_score : ℚ)
      (parse_text_response t).risk_level :=
  risk_level_of_consistent _

/-- The attachment list accumulated by the multipart walk. -/
theorem walkParts_atts (h2t : String → String) :
    ∀ (ps : List MimePart) (b : String) (a : List String) (body : String) (atts : List String),
      walkParts h2t ps b a = some (body, atts) →
      atts = a ++ ps.filterMap partAttachment := by
  intro ps
  induction ps with
  | nil =>
    intro b a body atts h
    simp only [walkParts, Option.some.injEq, Prod.mk.injEq] at h
    simp [h.2.symm]
  | cons p ps ih =>
    intro b a body atts h
    simp only [walkParts] at h
    split at h
    · next hpl =>
      split at h
      · next s hpd =>
        have hrec := ih _ _ _ _ h
        simp [hrec, List.filterMap_cons, partAttachment, hpl]
      · next hpd => cases h
    · next hpl =>
      split at h
      · next hph =>
        split at h
        · next s hpd =>
          have hrec := ih _ _ _ _ h
          simp [hrec, List.filterMap_cons, partAttachment, hph]
        · next hpd => cases h
      · next hph =>
        split at h
        · next f hpf =>
          split at h
          · next hfe =>
            have hrec := ih _ _ _ _ h
            simp [hrec, List.filterMap_cons, partAttachment, hpl, hph, hpf, hfe]
          · next hfe =>
            have hrec := ih _ _ _ _ h
            simp [hrec, List.filterMap_cons, partAttachment, hpl, hph, hpf, hfe]
        · next hpf =>
          have hrec := ih _ _ _ _ h
          simp [hrec, List.filterMap_cons, partAttachment, hpl, hph, hpf]

/-- A character-class `takeWhile` keeps everything when the stopping
character does not occur. -/
theorem takeWhile_no_colon :
    ∀ cs : List Char, ':' ∉ cs → cs.takeWhile (fun c => !(c == ':')) = cs := by
  intro cs
  induction cs with
  | nil => intro _; rfl
  | cons c t ih =>
    intro h
    have hc : ¬(c = ':') := fun hc => h (hc ▸ List.mem_cons_self c t)
    have ht : ':' ∉ t := fun hm => h (List.mem_cons_of_mem c hm)
    simp [List.takeWhile_cons, hc, ih ht]

/-- Without a colon there is no scheme to strip. -/
theorem splitSchemeRest_no_colon (cs : List Char) (h : ':' ∉ cs) :
    splitSchemeRest cs = cs := by
  simp [splitSchemeRest, takeWhile_no_colon cs h, List.drop_length]

/-! ## Claim theorems -/

/-- C2: for every content and metadata, the heuristic fallback returns
`risk_score = min(min(keyword_matches*15, 60) + min(suspicious_urls*20, 40), 100)`,
where `keyword_matches` counts the nine fixed phishing keywords found
case-insensitively as substrings of the content and `suspicious_urls`
counts the extracted URL findings flagged `suspicious_tld` or
`has_ip_address`; confidence is 0.6 and `indicators_found` is exactly
the two fixed-format count strings. -/
theorem spec_C2 (content : String) (md : EmailMetadata) :
    (fallback_analysis content md).risk_score
        = min (min (keywordMatches content * 15) 60
            + min (suspiciousUrlCount content * 20) 40) 100 ∧
    keywordMatches content
        = (phishing_keywords.filter (fun k => pyContains (pyLower content) k)).length ∧
    phishing_keywords.length = 9 ∧
    suspiciousUrlCount content
        = ((extract_urls content).filter
            (fun u => u.suspicious_tld || u.has_ip_address)).length ∧
    (fallback_analysis content md).confidence = 0.6 ∧
    (fallback_analysis content md).indicators_found
        = [toString (keywordMatches content) ++ " phishing keywords",
           toString (suspiciousUrlCount content) ++ " suspicious URLs"] :=
  ⟨rfl, rfl, rfl, rfl, rfl, rfl⟩

/-- C3: when the outbound AI call fails, `analyze_with_ai` returns
exactly the heuristic fallback's output for the same input, whose
confidence field is 0.6. -/
theorem spec_C3 (content : String) (md : EmailMetadata) :
    analyze_with_ai content md .failure = (fallback_analysis content md).toJson ∧
    (fallback_analysis content md).confidence = 0.6 ∧
    dictGet (analyze_with_ai content md .failure) "confidence"
        = some (.num 0.6) :=
  ⟨rfl, rfl, rfl⟩

/-- C7: `extract_metadata` returns the trimmed capture of the first
case-insensitive `From:\s*(.+)` match (default "Unknown"), the analogous
subject (default "No Subject"), link presence iff the URL pattern
matches, attachment presence iff the literal case-sensitive substring
occurs, and always a null date; on the given concrete input it yields
from "a@b.com", subject "Test" and no links or attachments. -/
theorem spec_C7 :
    (∀ raw : String,
      (extract_metadata raw).from_
          = (match searchLabelCapture "from:".toList raw.toList with
             | some cap => pyStrip cap
             | none => "Unknown") ∧
      (extract_metadata raw).subject
          = (match searchLabelCapture "subject:".toList raw.toList with
             | some cap => pyStrip cap
             | none => "No Subject") ∧
      ((extract_metadata raw).has_links = true ↔ findUrls raw ≠ []) ∧
      ((extract_metadata raw).has_attachments = true
          ↔ pyContains raw "Content-Disposition: attachment" = true) ∧
      (extract_metadata raw).date = none) ∧
    extract_metadata "From: a@b.com\nSubject: Test\n\nNo links here"
        = { from_ := "a@b.com", subject := "Test",
            has_links := false, has_attachments := false, date := none } := by
  constructor
  · intro raw
    refine ⟨rfl, rfl, ?_, Iff.rfl, rfl⟩
    show (!(findUrls raw).isEmpty) = true ↔ findUrls raw ≠ []
    simp [List.isEmpty_iff]
  · rfl

/-- C8: on the given text, `extract_urls` returns exactly two findings
in appearance order; the first has a suspicious TLD, no IP address and a
positive redirect-keyword count, the second an IP address and no
suspicious TLD. -/
theorem spec_C8 :
    extract_urls "Visit http://secure-login-bank.xyz/verify now or http://192.168.1.1/login"
        = [{ url := "http://secure-login-bank.xyz/verify", is_shortened := false,
             suspicious_tld := true, has_ip_address := false, redirect_depth := 3 },
           { url := "http://192.168.1.1/login", is_shortened := false,
             suspicious_tld := false, has_ip_address := true, redirect_depth := 1 }] ∧
    (∀ f ∈ extract_urls "Visit http://secure-login-bank.xyz/verify now or http://192.168.1.1/login",
      1 ≤ f.redirect_depth) := by
  constructor
  · rfl
  · decide

/-- C9: the heuristic score `fallbackScore` is what the fallback path
reports, is monotonically non-decreasing in each of its two counts, its
keyword component saturates at 60, its URL component saturates at 40,
and the total saturates at 100. -/
theorem spec_C9 :
    (∀ content md, (fallback_analysis content md).risk_score
        = fallbackScore (keywordMatches content) (suspiciousUrlCount content)) ∧
    (∀ k k' u, k ≤ k' → fallbackScore k u ≤ fallbackScore k' u) ∧
    (∀ k u u', u ≤ u' → fallbackScore k u ≤ fallbackScore k u') ∧
    (∀ k, min (k * 15) 60 ≤ 60) ∧
    (∀ k, 4 ≤ k → min (k * 15) 60 = 60) ∧
    (∀ u, min (u * 20) 40 ≤ 40) ∧
    (∀ u, 2 ≤ u → min (u * 20) 40 = 40) ∧
    (∀ k u, fallbackScore k u ≤ 100) := by
  refine ⟨fun content md => rfl, ?_, ?_, ?_, ?_, ?_, ?_, ?_⟩ <;>
    (intros; try simp only [fallbackScore]
     omega)

/-- C9 witness: the monotonicity statements applied at concrete counts. -/
theorem spec_C9_witness :
    fallbackScore 1 1 ≤ fallbackScore 3 1 ∧
    fallbackScore 1 1 ≤ fallbackScore 1 4 ∧
    min (5 * 15) 60 = 60 ∧ min (7 * 20) 40 = 40 :=
  ⟨spec_C9.2.1 1 3 1 (by decide), spec_C9.2.2.1 1 1 4 (by decide),
   spec_C9.2.2.2.2.1 5 (by decide), spec_C9.2.2.2.2.2.2.1 7 (by decide)⟩

/-- C1 counterexample: the AI JSON path returns the model's values
verbatim; an AI reply whose JSON object carries risk_score 10 together
with risk_level "HIGH" is passed through unchanged, violating the
threshold mapping (10 is not > 70). -/
theorem spec_C1_counterexample :
    dictGet (analyze_with_ai "body" ⟨"Unknown", "No Subject", false, false, none⟩
      (.success "Sure! \x7b\"risk_score\": 10, \"risk_level\": \"HIGH\"\x7d")) "risk_score"
        = some (.num 10) ∧
    dictGet (analyze_with_ai "body" ⟨"Unknown", "No Subject", false, false, none⟩
      (.success "Sure! \x7b\"risk_score\": 10, \"risk_level\": \"HIGH\"\x7d")) "risk_level"
        = some (.str "HIGH") ∧
    ¬ consistentScoreLevelQ 10 "HIGH" := by
  refine ⟨rfl, rfl, fun h => ?_⟩
  exact absurd (h.1.mp rfl) (by norm_num)

/-- C1 amended: the risk_score / risk_level consistency invariant holds
for every result produced by the text-scrape path and by the heuristic
fallback path (including the fallback taken when `json.loads` fails);
the AI JSON path returns the model's own values unvalidated and is
exempt. -/
theorem spec_C1_amended (content : String) (md : EmailMetadata) (call : AICallResult)
    (hnj : ∀ t js, call = .success t → extractBraces t = some js → jsonLoads js = none) :
    ∀ s l, dictGet (analyze_with_ai content md call) "risk_score" = some (.num s) →
      dictGet (analyze_with_ai content md call) "risk_level" = some (.str l) →
      consistentScoreLevelQ s l := by
  intro s l hs hl
  cases call with
  | failure =>
    simp only [analyze_with_ai, dictGet_toJson_score, Option.some.injEq,
      JsonVal.num.injEq] at hs
    simp only [analyze_with_ai, dictGet_toJson_level, Option.some.injEq,
      JsonVal.str.injEq] at hl
    rw [← hs, ← hl]
    exact fallback_consistent content md
  | success t =>
    cases hbr : extractBraces t with
    | none =>
      simp only [analyze_with_ai, hbr, dictGet_toJson_score, Option.some.injEq,
        JsonVal.num.injEq] at hs
      simp only [analyze_with_ai, hbr, dictGet_toJson_level, Option.some.injEq,
        JsonVal.str.injEq] at hl
      rw [← hs, ← hl]
      exact parse_text_consistent t
    | some js =>
      have hjl : jsonLoads js = none := hnj t js rfl hbr
      simp only [analyze_with_ai, hbr, hjl, dictGet_toJson_score, Option.some.injEq,
        JsonVal.num.injEq] at hs
      simp only [analyze_with_ai, hbr, hjl, dictGet_toJson_level, Option.some.injEq,
        JsonVal.str.injEq] at hl
      rw [← hs, ← hl]
      exact fallback_consistent content md

/-- C1 amended, witnessed at a concrete failed call: the fallback on
empty content scores 0 and reports LOW, which is threshold-consistent. -/
theorem spec_C1_witness :
    consistentScoreLevelQ ((0 : Nat) : ℚ) "LOW" :=
  spec_C1_amended "" ⟨"Unknown", "No Subject", false, false, none⟩ .failure
    (fun _ _ h => nomatch h) ((0 : Nat) : ℚ) "LOW" rfl rfl

/-- C4: when the AI call succeeds but its text contains no
brace-delimited JSON object, the text-scrape parser is applied: the
result's risk_score is the number captured by the risk-score phrase
regex (default 50), its risk_level is derived from the threshold table,
and its confidence is 0.8; in particular a response containing
"risk score: 82" yields 82 and HIGH. -/
theorem spec_C4 :
    (∀ content md text, extractBraces text = none →
      analyze_with_ai content md (.success text) = (parse_text_response text).toJson ∧
      (parse_text_response text).risk_score = (searchRiskScore text.toList).getD 50 ∧
      (parse_text_response text).risk_level
          = risk_level_of ((searchRiskScore text.toList).getD 50) ∧
      (parse_text_response text).confidence = 0.8) ∧
    searchRiskScore "I judge the overall risk score: 82 for this email".toList = some 82 ∧
    (parse_text_response "I judge the overall risk score: 82 for this email").risk_score = 82 ∧
    (parse_text_response "I judge the overall risk score: 82 for this email").risk_level
        = "HIGH" ∧
    (parse_text_response "I judge the overall risk score: 82 for this email").confidence
        = 0.8 ∧
    (∀ text, searchRiskScore text.toList = none →
      (parse_text_response text).risk_score = 50) := by
  refine ⟨fun content md text h => ⟨?_, rfl, rfl, rfl⟩, rfl, rfl, rfl, rfl,
    fun text h => ?_⟩
  · simp only [analyze_with_ai, h]
  · simp only [parse_text_response, h, Option.getD_none]

/-- C4 witness: the no-JSON hypothesis discharged on a concrete
response text. -/
theorem spec_C4_witness :
    extractBraces "no json here risk score: 82 overall" = none ∧
    analyze_with_ai "body" ⟨"Unknown", "No Subject", false, false, none⟩
        (.success "no json here risk score: 82 overall")
      = (parse_text_response "no json here risk score: 82 overall").toJson ∧
    searchRiskScore "none at all".toList = none ∧
    (parse_text_response "none at all").risk_score = 50 :=
  ⟨rfl,
   (spec_C4.1 "body" ⟨"Unknown", "No Subject", false, false, none⟩
     "no json here risk score: 82 overall" rfl).1,
   rfl,
   spec_C4.2.2.2.2.2 "none at all" rfl⟩

/-- C5: if any step of email parsing raises (`message_from_string`
failing, or a payload decode step raising), `parse_email` swallows the
error and returns the dictionary with body equal to the raw input and
empty headers, attachments and links. -/
theorem spec_C5 (h2t : String → String) (raw : String) (res : Except Unit MimeMsg)
    (h : res = .error () ∨ ∃ msg, res = .ok msg ∧ bodyOf h2t msg = none) :
    parse_email h2t raw res
      = { headers := [], body := raw, attachments := [], links := [] } := by
  rcases h with h | ⟨msg, rfl, hb⟩
  · subst h; rfl
  · simp only [parse_email, hb]

/-- C5 witness: a raising MIME parse and a raising payload decode, both
at concrete inputs. -/
theorem spec_C5_witness :
    parse_email (fun s => s) "RAW INPUT" (.error ())
        = { headers := [], body := "RAW INPUT", attachments := [], links := [] } ∧
    bodyOf (fun s => s) ⟨[("From", "x@y")], false, [], none, none⟩ = none ∧
    parse_email (fun s => s) "RAW INPUT"
        (.ok ⟨[("From", "x@y")], false, [], none, none⟩)
        = { headers := [], body := "RAW INPUT", attachments := [], links := [] } :=
  ⟨spec_C5 (fun s => s) "RAW INPUT" (.error ()) (Or.inl rfl),
   rfl,
   spec_C5 (fun s => s) "RAW INPUT" (.ok ⟨[("From", "x@y")], false, [], none, none⟩)
     (Or.inr ⟨_, rfl, rfl⟩)⟩

/-- C6 counterexample: a multipart message whose only walked part is a
`text/plain` part that declares the filename "invoice.txt".  The parse
succeeds (body "hello"), yet the attachments list is empty: the
`elif part.get_filename():` branch is unreachable for text parts, so
the claim's inclusion of text/plain and text/html parts is false. -/
theorem spec_C6_counterexample :
    (parse_email (fun s => s) "raw"
        (.ok ⟨[], true, [⟨"text/plain", some "invoice.txt", some "hello"⟩], none, none⟩)).body
      = "hello" ∧
    ((.ok ⟨[], true, [⟨"text/plain", some "invoice.txt", some "hello"⟩], none, none⟩ :
        Except Unit MimeMsg).toOption.map MimeMsg.parts).map (List.map MimePart.filename)
      = some [some "invoice.txt"] ∧
    (parse_email (fun s => s) "raw"
        (.ok ⟨[], true, [⟨"text/plain", some "invoice.txt", some "hello"⟩], none, none⟩)).attachments
      = [] :=
  ⟨rfl, rfl, rfl⟩

/-- C6 amended: for a successfully decoded message, the attachments
sequence is exactly the filenames of the walked parts of a multipart
message whose content type is neither text/plain nor text/html and whose
declared filename is truthy, in walk order; text parts with filenames
and non-multipart messages contribute no attachments. -/
theorem spec_C6_amended (h2t : String → String) (raw : String) (msg : MimeMsg)
    (body : String) (atts : List String)
    (h : bodyOf h2t msg = some (body, atts)) :
    (parse_email h2t raw (.ok msg)).attachments
        = (if msg.is_multipart then msg.parts.filterMap partAttachment else []) ∧
    (∀ p ∈ msg.parts, msg.is_multipart = true →
      ∀ f, partAttachment p = some f →
        f ∈ (parse_email h2t raw (.ok msg)).attachments) := by
  have hatts : (parse_email h2t raw (.ok msg)).attachments = atts := by
    simp only [parse_email, h]
  have hval : atts = (if msg.is_multipart then msg.parts.filterMap partAttachment else []) := by
    unfold bodyOf at h
    by_cases hm : msg.is_multipart
    · rw [if_pos hm] at h
      rw [if_pos hm]
      simpa using walkParts_atts h2t msg.parts "" [] body atts h
    · rw [if_neg hm] at h
      rw [if_neg hm]
      cases hp : msg.payload with
      | none => rw [hp] at h; cases h
      | some b =>
        rw [hp] at h
        exact (Prod.mk.injEq _ _ _ _ ▸ Option.some.inj h).2.symm
  constructor
  · rw [hatts, hval]
  · intro p hp hm f hf
    rw [hatts, hval, if_pos hm]
    exact List.mem_filterMap.mpr ⟨p, hp, hf⟩

/-- C6 amended witness: a multipart message with a container part, a
text part and a PDF part with a filename. -/
theorem spec_C6_witness :
    bodyOf (fun s => s)
        ⟨[], true, [⟨"multipart/mixed", none, none⟩,
                    ⟨"text/plain", none, some "hi"⟩,
                    ⟨"application/pdf", some "doc.pdf", none⟩], none, none⟩
      = some ("hi", ["doc.pdf"]) ∧
    (parse_email (fun s => s) "raw"
        (.ok ⟨[], true, [⟨"multipart/mixed", none, none⟩,
                         ⟨"text/plain", none, some "hi"⟩,
                         ⟨"application/pdf", some "doc.pdf", none⟩], none, none⟩)).attachments
      = ["doc.pdf"] := by
  refine ⟨rfl, ?_⟩
  have h := (spec_C6_amended (fun s => s) "raw"
    ⟨[], true, [⟨"multipart/mixed", none, none⟩,
                ⟨"text/plain", none, some "hi"⟩,
                ⟨"application/pdf", some "doc.pdf", none⟩], none, none⟩
    "hi" ["doc.pdf"] rfl).1
  rw [h]
  rfl

/-- C10 counterexample: the URL "www.abc://host.tk" is matched by the
www alternative of the URL pattern, yet `urlparse` treats "www.abc" as a
valid scheme (scheme characters include dots), so the netloc is
"host.tk" and the finding IS flagged with a suspicious TLD. -/
theorem spec_C10_counterexample :
    findUrls "www.abc://host.tk" = ["www.abc://host.tk"] ∧
    "www.".toList.isPrefixOf "www.abc://host.tk".toList = true ∧
    urlparseNetloc "www.abc://host.tk" = "host.tk" ∧
    extract_urls "www.abc://host.tk"
        = [{ url := "www.abc://host.tk", is_shortened := false,
             suspicious_tld := true, has_ip_address := false, redirect_depth := 0 }] :=
  ⟨rfl, rfl, rfl, rfl⟩

/-- C10 amended: an extracted URL matched by the www alternative whose
text contains no colon has an empty parsed network location and hence is
never flagged with a suspicious TLD (the original claim fails only for
www URLs embedding a scheme-like colon). -/
theorem spec_C10_amended (url : String)
    (hw : "www.".toList.isPrefixOf url.toList = true)
    (hc : ':' ∉ url.toList) :
    urlparseNetloc url = "" ∧ has_suspicious_tld url = false := by
  obtain ⟨t, ht⟩ : ∃ t, url.toList = "www.".toList ++ t := by
    obtain ⟨t, ht⟩ := (List.isPrefixOf_iff_prefix.mp hw)
    exact ⟨t, ht.symm⟩
  have hnet : urlparseNetloc url = "" := by
    unfold urlparseNetloc
    rw [splitSchemeRest_no_colon url.toList hc, ht]
    rfl
  refine ⟨hnet, ?_⟩
  unfold has_suspicious_tld
  rw [hnet]
  rfl

/-- C10 amended witness: a colon-free www URL with a suspicious-looking
textual suffix is still not flagged. -/
theorem spec_C10_witness :
    ("www.".toList.isPrefixOf "www.example.xyz".toList = true) ∧
    urlparseNetloc "www.example.xyz" = "" ∧
    has_suspicious_tld "www.example.xyz" = false :=
  ⟨rfl, (spec_C10_amended "www.example.xyz" rfl (by decide)).1,
   (spec_C10_amended "www.example.xyz" rfl (by decide)).2⟩
